import Mathlib

/-!
Verification of the news-aggregation core of the `news-api` repository:
a shallow embedding of `src/lib/news-types.ts`, `src/lib/rss.ts`, the Reddit
source module and `src/app/api/news/route.ts`, followed by theorems about the
embedded definitions.

Modelling conventions:
* JS strings are Lean `String`s; `s.length`, `s.trim()` and `s.slice(0,n)` are
  modelled by `jsLength`, `jsTrim` and `jsSliceTo` (code-unit vs code-point
  differences are immaterial for the strings involved).
* ISO-8601 timestamps are modelled by their epoch-millisecond value (an `Int`);
  `new Date(x).getTime()` on a stored timestamp is the identity of that value,
  and the ISO string order agrees with the numeric order.
* Network and parser boundaries (rss-parser, https, JSON.parse, Date parsing,
  the WHATWG URL constructor) enter the model as explicit arguments or
  `Except`/`Option` results: `Except.error` is a thrown/rejected upstream call.
* Node's `crypto` sha256 is embedded directly (FIPS 180-4 over `Nat` with
  explicit `% 2^32` word arithmetic).
-/

set_option maxRecDepth 400000

namespace NewsApi

/-! ### JS string primitives -/

/-- Models the JS `string.length` of a stored string. -/
def jsLength (s : String) : Nat := s.data.length

/-- Models `String.prototype.trim`: strip whitespace from both ends. -/
def jsTrim (s : String) : String :=
  String.mk (((s.data.dropWhile Char.isWhitespace).reverse.dropWhile Char.isWhitespace).reverse)

/-- Models `s.slice(0, n)`. -/
def jsSliceTo (s : String) (n : Nat) : String := String.mk (s.data.take n)

/-- One step of the global regex replace `/<[^>]*>/g → ""`: outside a tag,
a `<` opens a pending buffer; inside, a `>` discards the buffered tag. -/
def stripTagsStep (acc : List Char × Option (List Char)) (c : Char) :
    List Char × Option (List Char) :=
  match acc.2 with
  | none => if c = '<' then (acc.1, some ['<']) else (acc.1 ++ [c], none)
  | some buf => if c = '>' then (acc.1, none) else (acc.1, some (buf ++ [c]))

/-- Models `s.replace(/<[^>]*>/g, "")`: drop every complete `<...>` tag; an
unterminated `<...` suffix has no match and is kept verbatim. -/
def stripTags (s : String) : String :=
  let r := s.data.foldl stripTagsStep ([], none)
  String.mk (match r.2 with | none => r.1 | some buf => r.1 ++ buf)

/-- One step of the global regex replace `/\n{2,}/g → " "`: the `Nat` counts
pending newline characters not yet emitted. -/
def collapseStep (acc : List Char × Nat) (c : Char) : List Char × Nat :=
  if c = '\n' then (acc.1, acc.2 + 1)
  else
    (acc.1 ++ (if 2 ≤ acc.2 then [' '] else List.replicate acc.2 '\n') ++ [c], 0)

/-- Models `s.replace(/\n{2,}/g, " ")`: every run of two or more newlines
becomes a single space; lone newlines are kept. -/
def collapseNewlines (s : String) : String :=
  let r := s.data.foldl collapseStep ([], 0)
  String.mk (r.1 ++ (if 2 ≤ r.2 then [' '] else List.replicate r.2 '\n'))

/-! ### SHA-256 (models Node `crypto.createHash("sha256")`, FIPS 180-4) -/

/-- The modulus of 32-bit word arithmetic, 2 ^ 32. -/
def M32 : Nat := 4294967296

/-- Right rotation of a 32-bit word. -/
def rotr (n x : Nat) : Nat := ((x >>> n) ||| (x <<< (32 - n))) % M32

/-- Bitwise complement of a 32-bit word. -/
def wnot (x : Nat) : Nat := x ^^^ (M32 - 1)

def bigS0 (x : Nat) : Nat := rotr 2 x ^^^ rotr 13 x ^^^ rotr 22 x

def bigS1 (x : Nat) : Nat := rotr 6 x ^^^ rotr 11 x ^^^ rotr 25 x

def smallS0 (x : Nat) : Nat := rotr 7 x ^^^ rotr 18 x ^^^ (x >>> 3)

def smallS1 (x : Nat) : Nat := rotr 17 x ^^^ rotr 19 x ^^^ (x >>> 10)

def chFn (x y z : Nat) : Nat := (x &&& y) ^^^ (wnot x &&& z)

def majFn (x y z : Nat) : Nat := (x &&& y) ^^^ (x &&& z) ^^^ (y &&& z)

/-- The 64 SHA-256 round constants (FIPS 180-4 section 4.2.2, in decimal). -/
def sha256K : List Nat :=
  [1116352408, 1899447441, 3049323471, 3921009573, 961987163,
   1508970993, 2453635748, 2870763221, 3624381080, 310598401,
   607225278, 1426881987, 1925078388, 2162078206, 2614888103,
   3248222580, 3835390401, 4022224774, 264347078, 604807628,
   770255983, 1249150122, 1555081692, 1996064986, 2554220882,
   2821834349, 2952996808, 3210313671, 3336571891, 3584528711,
   113926993, 338241895, 666307205, 773529912, 1294757372,
   1396182291, 1695183700, 1986661051, 2177026350, 2456956037,
   2730485921, 2820302411, 3259730800, 3345764771, 3516065817,
   3600352804, 4094571909, 275423344, 430227734, 506948616,
   659060556, 883997877, 958139571, 1322822218, 1537002063,
   1747873779, 1955562222, 2024104815, 2227730452, 2361852424,
   2428436474, 2756734187, 3204031479, 3329325298]

/-- The eight working words of the SHA-256 state. -/
structure Hash8 where
  a : Nat
  b : Nat
  c : Nat
  d : Nat
  e : Nat
  f : Nat
  g : Nat
  h : Nat
  deriving DecidableEq

/-- Initial hash value H(0) (FIPS 180-4 section 5.3.3, in decimal). -/
def sha256init : Hash8 :=
  ⟨1779033703, 3144134277, 1013904242, 2773480762,
   1359893119, 2600822924, 528734635, 1541459225⟩

/-- UTF-8 encoding of one Unicode code point (Node encodes `update(link)` as utf8). -/
def utf8EncodeChar (c : Char) : List Nat :=
  let n := c.toNat
  if n < 0x80 then [n]
  else if n < 0x800 then [0xc0 ||| (n >>> 6), 0x80 ||| (n &&& 0x3f)]
  else if n < 0x10000 then
    [0xe0 ||| (n >>> 12), 0x80 ||| ((n >>> 6) &&& 0x3f), 0x80 ||| (n &&& 0x3f)]
  else
    [0xf0 ||| (n >>> 18), 0x80 ||| ((n >>> 12) &&& 0x3f), 0x80 ||| ((n >>> 6) &&& 0x3f),
     0x80 ||| (n &&& 0x3f)]

/-- UTF-8 bytes of a string. -/
def utf8Encode (s : String) : List Nat := (s.data.map utf8EncodeChar).flatten

/-- The 8 big-endian bytes of the 64-bit message bit length. -/
def lenBytes (n : Nat) : List Nat :=
  [(n >>> 56) &&& 255, (n >>> 48) &&& 255, (n >>> 40) &&& 255, (n >>> 32) &&& 255,
   (n >>> 24) &&& 255, (n >>> 16) &&& 255, (n >>> 8) &&& 255, n &&& 255]

/-- SHA-256 padding: append 0x80, zeros up to 56 mod 64 bytes, then the bit length. -/
def padMessage (msg : List Nat) : List Nat :=
  let L := msg.length
  let k := (119 - (L % 64)) % 64
  msg ++ [0x80] ++ List.replicate k 0 ++ lenBytes (8 * L)

/-- Split a byte list into 64-byte blocks (the padded length is a multiple of 64). -/
def toBlocks (bytes : List Nat) : List (List Nat) :=
  (bytes.foldl
    (fun (acc : List (List Nat) × List Nat) b =>
      let cur := acc.2 ++ [b]
      if cur.length = 64 then (acc.1 ++ [cur], []) else (acc.1, cur))
    ([], [])).1

/-- Combine a 64-byte block into 16 big-endian 32-bit words. -/
def toWords (block : List Nat) : List Nat :=
  (block.foldl
    (fun (acc : List Nat × List Nat) b =>
      let cur := acc.2 ++ [b]
      if cur.length = 4 then
        (acc.1 ++ [cur.foldl (fun w x => w * 256 + x) 0], [])
      else (acc.1, cur))
    ([], [])).1

/-- Extend the 16 message words to the 64-entry message schedule. -/
def schedule (ws : List Nat) : List Nat :=
  (List.range 48).foldl
    (fun w _ =>
      let t := w.length
      w ++ [(smallS1 (w.getD (t - 2) 0) + w.getD (t - 7) 0 +
             smallS0 (w.getD (t - 15) 0) + w.getD (t - 16) 0) % M32])
    ws

/-- SHA-256 compression of one 64-word schedule into the running state. -/
def compress (st : Hash8) (w : List Nat) : Hash8 :=
  let fin := (List.range 64).foldl
    (fun (s : Hash8) t =>
      let T1 := (s.h + bigS1 s.e + chFn s.e s.f s.g + sha256K.getD t 0 + w.getD t 0) % M32
      let T2 := (bigS0 s.a + majFn s.a s.b s.c) % M32
      ⟨(T1 + T2) % M32, s.a, s.b, s.c, (s.d + T1) % M32, s.e, s.f, s.g⟩)
    st
  ⟨(st.a + fin.a) % M32, (st.b + fin.b) % M32, (st.c + fin.c) % M32, (st.d + fin.d) % M32,
   (st.e + fin.e) % M32, (st.f + fin.f) % M32, (st.g + fin.g) % M32, (st.h + fin.h) % M32⟩

/-- SHA-256 of a byte message, as the 8 final 32-bit hash words. -/
def sha256words (msg : List Nat) : Hash8 :=
  (toBlocks (padMessage msg)).foldl (fun st blk => compress st (schedule (toWords blk))) sha256init

/-- Lowercase hex digit of `n % 16`. -/
def hexDigit (n : Nat) : Char :=
  let m := n % 16
  if m < 10 then Char.ofNat (48 + m) else Char.ofNat (87 + m)

/-- The 8 lowercase hex characters of one 32-bit word, most significant first. -/
def wordHexChars (w : Nat) : List Char :=
  [hexDigit (w / 268435456), hexDigit (w / 16777216), hexDigit (w / 1048576),
   hexDigit (w / 65536), hexDigit (w / 4096), hexDigit (w / 256), hexDigit (w / 16), hexDigit w]

/-- Hex rendering of the full 256-bit digest (64 characters). -/
def digestHex (st : Hash8) : List Char :=
  wordHexChars st.a ++ wordHexChars st.b ++ wordHexChars st.c ++ wordHexChars st.d ++
  wordHexChars st.e ++ wordHexChars st.f ++ wordHexChars st.g ++ wordHexChars st.h

/-- Models `makeId` from src/lib/news-types.ts:
sha256 hex digest of the utf8-encoded link, truncated to the first 16 hex chars. -/
def makeId (link : String) : String :=
  String.mk ((digestHex (sha256words (utf8Encode link))).take 16)

/-- The 64-bit value rendered by the 16 kept hex characters of `makeId`:
the first two hash words packed big-endian (reduced mod 2^32, which they
already are). The finite codomain drives the pigeonhole argument. -/
def truncPair (l : String) : Fin 18446744073709551616 :=
  ⟨((sha256words (utf8Encode l)).a % 4294967296) * 4294967296 +
    (sha256words (utf8Encode l)).b % 4294967296, by omega⟩

/-- Rendering of a packed 64-bit value as 16 lowercase hex characters. -/
def renderPair (n : Fin 18446744073709551616) : String :=
  String.mk (wordHexChars (n.val / 4294967296) ++ wordHexChars (n.val % 4294967296))

/-! ### NewsItem (src/lib/news-types.ts) -/

/-- The unified news entity shared by all source modules. -/
structure NewsItem where
  id : String
  title : String
  link : String
  source : String
  publishedAt : Int
  summary : String
  deriving DecidableEq

/-! ### RSS source module (src/lib/rss.ts) -/

/-- The fields of an rss-parser item that the code reads; `isoDate` is modelled
by its parsed epoch-millisecond value (the `Date` boundary). -/
structure RSSItem where
  title : Option String
  link : Option String
  content : Option String
  contentSnippet : Option String
  isoDate : Option Int
  deriving DecidableEq

/-- A parsed feed: its title, its channel link, and its items. -/
structure RSSFeed where
  title : Option String
  feedLink : Option String
  items : List RSSItem
  deriving DecidableEq

/-- Models the WHATWG URL library call `new URL(u).hostname`; `none` models the
constructor throwing on an invalid URL (including the empty string). -/
def hostnameOf (u : String) : Option String :=
  let rest :=
    if u.startsWith "https://" then some (u.drop 8)
    else if u.startsWith "http://" then some (u.drop 7)
    else none
  match rest with
  | none => none
  | some r =>
    let host := String.mk (r.data.takeWhile (fun c => c != '/' && c != ':' && c != '?' && c != '#'))
    if host = "" then none else some host

/-- Models `extractSource`: the feed title when nonempty after trimming, else the
hostname of the feed link; `none` models the URL constructor throwing. -/
def extractSource (feed : RSSFeed) : Option String :=
  let t := jsTrim (feed.title.getD "")
  if t != "" then some t else hostnameOf (feed.feedLink.getD "")

/-- The summary value of `normaliseItem` before the 500-char cap:
the trimmed content snippet, else the tag-stripped trimmed content, else "". -/
def rssSummaryCandidate (item : RSSItem) : String :=
  let snip := jsTrim (item.contentSnippet.getD "")
  if snip != "" then snip
  else jsTrim (stripTags (item.content.getD ""))

/-- Models `normaliseItem` (src/lib/rss.ts): items without a link are dropped;
`now` is the epoch-millisecond fallback for a missing `isoDate`. -/
def normaliseItem (now : Int) (item : RSSItem) (source : String) : Option NewsItem :=
  let link := jsTrim (item.link.getD "")
  if link = "" then none
  else
    let t := jsTrim (item.title.getD "")
    let title := if t = "" then "(no title)" else t
    let summary := rssSummaryCandidate item
    let publishedAt :=
      match item.isoDate with
      | some ts => ts
      | none => now
    some ⟨makeId link, title, link, source, publishedAt,
      if 500 < jsLength summary then jsSliceTo summary 497 ++ "…" else summary⟩

/-- Models `fetchFeed` (src/lib/rss.ts): the per-feed fetch/parse outcome enters
as an `Except`; a rejection, and likewise a URL-constructor throw inside
`extractSource`, is caught by the surrounding try/catch and yields `[]`. -/
def fetchFeedResult (now : Int) (result : Except Unit RSSFeed) : List NewsItem :=
  match result with
  | Except.error _ => []
  | Except.ok feed =>
    match extractSource feed with
    | none => []
    | some source => feed.items.filterMap (fun entry => normaliseItem now entry source)

/-- The link-dedup loop shared by `getNews` and the route handler: `seen` is the
set of links already emitted, output keeps first occurrences in order. -/
def dedupAux (seen : List String) : List NewsItem → List NewsItem
  | [] => []
  | item :: rest =>
    if item.link ∈ seen then dedupAux seen rest
    else item :: dedupAux (item.link :: seen) rest

/-- Deduplicate by `link`, keeping the first occurrence of each distinct link. -/
def dedupByLink (items : List NewsItem) : List NewsItem := dedupAux [] items

/-- The comparator `(a, b) => timeB - timeA`: `a` may precede `b` iff
`b.publishedAt ≤ a.publishedAt` (descending). -/
def byPublishedDesc (a b : NewsItem) : Bool := decide (b.publishedAt ≤ a.publishedAt)

/-- Models the stable `Array.prototype.sort` with the descending comparator. -/
def sortByPublishedAtDesc (items : List NewsItem) : List NewsItem :=
  items.mergeSort byPublishedDesc

/-- Models `results.flat()` in `getNews`: concatenation of per-feed results. -/
def getNewsAllItems (now : Int) (results : List (Except Unit RSSFeed)) : List NewsItem :=
  (results.map (fetchFeedResult now)).flatten

/-- The value computed (and cached) by `getNews` on a cache miss:
dedup by link, then sort by `publishedAt` descending. -/
def getNewsCompute (now : Int) (results : List (Except Unit RSSFeed)) : List NewsItem :=
  sortByPublishedAtDesc (dedupByLink (getNewsAllItems now results))

/-- The module-level cache slot `{data, expiresAt}`. -/
structure CacheEntry where
  data : List NewsItem
  expiresAt : Int
  deriving DecidableEq

/-- CACHE_TTL_MS = 5 * 60 * 1000 (both source modules). -/
def CACHE_TTL_MS : Int := 5 * 60 * 1000

/-- Models one invocation of `getNews` at time `now` against cache state
`cache`: returns (result, new cache state, whether the network fetch ran). -/
def getNewsStep (now : Int) (feedResults : List (Except Unit RSSFeed))
    (cache : Option CacheEntry) : List NewsItem × Option CacheEntry × Bool :=
  match cache with
  | some entry =>
    if now < entry.expiresAt then (entry.data, some entry, false)
    else
      let unique := getNewsCompute now feedResults
      (unique, some ⟨unique, now + CACHE_TTL_MS⟩, true)
  | none =>
    let unique := getNewsCompute now feedResults
    (unique, some ⟨unique, now + CACHE_TTL_MS⟩, true)

/-! ### Reddit source module (the unnamed reddit.ts, src/unnamed/part_004) -/

/-- The fields of a Reddit post that the code reads; `created_utc` is the
creation epoch in seconds. -/
structure RedditPostData where
  title : String
  url : String
  permalink : String
  selftext : String
  is_self : Bool
  stickied : Bool
  created_utc : Int
  subreddit : String
  domain : String
  deriving DecidableEq

/-- A listing child: `{ data: {...} }`. -/
structure RedditPost where
  data : RedditPostData
  deriving DecidableEq

/-- The inner `data` object of a listing: `{ children: [...] }`. -/
structure RedditListingData where
  children : List RedditPost
  deriving DecidableEq

/-- A Reddit listing: `{ data: { children: [...] } }`. -/
structure RedditListing where
  data : RedditListingData
  deriving DecidableEq

/-- The value of `cleaned` in `normalisePost`: selftext with newline runs
collapsed, trimmed (the summary before the 500-char cap). -/
def redditSummaryCandidate (d : RedditPostData) : String :=
  jsTrim (collapseNewlines d.selftext)

/-- Models `normalisePost`: stickied posts and posts whose trimmed title is
empty are dropped; self posts link to their permalink on reddit.com, link posts
to their external url; an empty link drops the post. -/
def normalisePost (post : RedditPost) : Option NewsItem :=
  let d := post.data
  if d.stickied || jsTrim d.title == "" then none
  else
    let link := if d.is_self then "https://www.reddit.com" ++ d.permalink else d.url
    if link = "" then none
    else
      let summary :=
        if d.selftext = "" then ""
        else
          let cleaned := redditSummaryCandidate d
          if 500 < jsLength cleaned then jsSliceTo cleaned 497 ++ "…" else cleaned
      some ⟨makeId link, jsTrim d.title, link, "r/" ++ d.subreddit,
        d.created_utc * 1000, summary⟩

/-- Models `fetchSubreddit`: an upstream rejection (`Except.error`) is caught
and yields `[]`; a listing is normalised post by post. -/
def fetchSubredditResult (result : Except Unit RedditListing) : List NewsItem :=
  match result with
  | Except.error _ => []
  | Except.ok listing => listing.data.children.filterMap normalisePost

/-- Models `results.flat()` in `getRedditNews`: the raw concatenation of the
per-subreddit results, stored in the cache with no dedup and no sort. -/
def getRedditAllItems (results : List (Except Unit RedditListing)) : List NewsItem :=
  (results.map fetchSubredditResult).flatten

/-- Models one invocation of `getRedditNews` at time `now` against cache state
`cache`: returns (result, new cache state, whether the network fetch ran). -/
def getRedditNewsStep (now : Int) (listingResults : List (Except Unit RedditListing))
    (cache : Option CacheEntry) : List NewsItem × Option CacheEntry × Bool :=
  match cache with
  | some entry =>
    if now < entry.expiresAt then (entry.data, some entry, false)
    else
      let allItems := getRedditAllItems listingResults
      (allItems, some ⟨allItems, now + CACHE_TTL_MS⟩, true)
  | none =>
    let allItems := getRedditAllItems listingResults
    (allItems, some ⟨allItems, now + CACHE_TTL_MS⟩, true)

/-! ### The redirect-following JSON fetch (`fetchJSON` in the Reddit module) -/

/-- One upstream HTTP response as `fetchJSON` observes it. -/
structure HttpResp where
  statusCode : Nat
  location : Option String
  body : String

/-- The redirect test of `fetchJSON`: a 3xx status with a Location header. -/
def isRedirectResp (r : HttpResp) : Bool :=
  decide (300 ≤ r.statusCode) && decide (r.statusCode < 400) && r.location.isSome

/-- Models `fetchJSON` with the upstream as a function `up` from url to
response and `parse` as the JSON.parse boundary. The original recurses on the
Location header with no depth bound; the embedding makes the recursion depth
explicit as `fuel`, with `none` meaning the recursion has not terminated
within `fuel` redirect steps. -/
def fetchJSONFuel (up : String → HttpResp) (parse : String → Option RedditListing) :
    Nat → String → Option (Except String RedditListing)
  | 0, _ => none
  | fuel + 1, url =>
    let res := up url
    if isRedirectResp res then fetchJSONFuel up parse fuel (res.location.getD "")
    else if res.statusCode ≠ 200 then some (Except.error "HTTP status")
    else
      match parse res.body with
      | some listing => some (Except.ok listing)
      | none => some (Except.error "JSON parse")

/-- `RedirectChain up url n`: following redirects from `url` reaches a
non-redirect response after exactly `n` redirect hops (a finite chain). -/
inductive RedirectChain (up : String → HttpResp) : String → Nat → Prop
  | done (url : String) : isRedirectResp (up url) = false → RedirectChain up url 0
  | step (url : String) (n : Nat) : isRedirectResp (up url) = true →
      RedirectChain up ((up url).location.getD "") n → RedirectChain up url (n + 1)

/-! ### The aggregate route handler (src/app/api/news/route.ts) -/

/-- The JSON body of a successful aggregate response. -/
structure NewsResponse where
  ok : Bool
  count : Nat
  items : List NewsItem
  deriving DecidableEq

/-- Models the `GET` handler body given the two per-source results: merge in
the order [rss, reddit], dedup by link keeping first occurrences, sort by
`publishedAt` descending, and answer `{ ok: true, count, items }`. -/
def GETnews (rssItems redditItems : List NewsItem) : NewsResponse :=
  let allItems := rssItems ++ redditItems
  let unique := sortByPublishedAtDesc (dedupByLink allItems)
  ⟨true, unique.length, unique⟩

/-! ### Helper lemmas about the dedup loop and the sort -/

theorem dedupAux_link_not_mem : ∀ (l : List NewsItem) (seen : List String) (y : NewsItem),
    y ∈ dedupAux seen l → y.link ∉ seen := by
  intro l
  induction l with
  | nil => intro seen y hy; simp [dedupAux] at hy
  | cons item rest ih =>
    intro seen y hy
    by_cases hmem : item.link ∈ seen
    · rw [dedupAux, if_pos hmem] at hy
      exact ih seen y hy
    · rw [dedupAux, if_neg hmem] at hy
      rcases List.mem_cons.mp hy with rfl | hy
      · exact hmem
      · have hnot := ih _ y hy
        intro hc
        exact hnot (List.mem_cons_of_mem _ hc)

theorem dedupAux_pairwise : ∀ (l : List NewsItem) (seen : List String),
    (dedupAux seen l).Pairwise (fun a b => a.link ≠ b.link) := by
  intro l
  induction l with
  | nil => intro seen; simp [dedupAux]
  | cons item rest ih =>
    intro seen
    by_cases hmem : item.link ∈ seen
    · rw [dedupAux, if_pos hmem]
      exact ih seen
    · rw [dedupAux, if_neg hmem]
      refine List.Pairwise.cons ?_ (ih _)
      intro y hy heq
      exact dedupAux_link_not_mem rest _ y hy (heq ▸ List.mem_cons_self _ _)

theorem dedupAux_find : ∀ (l : List NewsItem) (seen : List String) (y : NewsItem),
    y ∈ dedupAux seen l → l.find? (fun i => i.link == y.link) = some y := by
  intro l
  induction l with
  | nil => intro seen y hy; simp [dedupAux] at hy
  | cons item rest ih =>
    intro seen y hy
    by_cases hmem : item.link ∈ seen
    · rw [dedupAux, if_pos hmem] at hy
      have hne : ¬((item.link == y.link) = true) := by
        simp only [beq_iff_eq]
        intro h
        exact dedupAux_link_not_mem rest seen y hy (h ▸ hmem)
      rw [@List.find?_cons_of_neg _ (fun i => i.link == y.link) item rest hne]
      exact ih seen y hy
    · rw [dedupAux, if_neg hmem] at hy
      rcases List.mem_cons.mp hy with rfl | hy
      · exact List.find?_cons_of_pos _ (by simp)
      · have hne : ¬((item.link == y.link) = true) := by
          simp only [beq_iff_eq]
          intro h
          exact dedupAux_link_not_mem rest _ y hy (h ▸ List.mem_cons_self _ _)
        rw [@List.find?_cons_of_neg _ (fun i => i.link == y.link) item rest hne]
        exact ih _ y hy

theorem dedupAux_covers : ∀ (l : List NewsItem) (seen : List String) (x : NewsItem),
    x ∈ l → x.link ∉ seen → ∃ y, y ∈ dedupAux seen l ∧ y.link = x.link := by
  intro l
  induction l with
  | nil => intro seen x hx _; simp at hx
  | cons item rest ih =>
    intro seen x hx hseen
    by_cases hmem : item.link ∈ seen
    · rw [dedupAux, if_pos hmem]
      rcases List.mem_cons.mp hx with rfl | hx
      · exact absurd hmem hseen
      · exact ih seen x hx hseen
    · rw [dedupAux, if_neg hmem]
      by_cases hlink : x.link = item.link
      · exact ⟨item, List.mem_cons_self _ _, hlink.symm⟩
      · rcases List.mem_cons.mp hx with rfl | hx
        · exact absurd rfl hlink
        · obtain ⟨y, hy, hyl⟩ := ih (item.link :: seen) x hx (by
            intro hc
            rcases List.mem_cons.mp hc with h | h
            · exact hlink h
            · exact hseen h)
          exact ⟨y, List.mem_cons_of_mem _ hy, hyl⟩

theorem pairwise_countP_one : ∀ (l : List NewsItem) (lk : String),
    l.Pairwise (fun a b => a.link ≠ b.link) → ∀ y, y ∈ l → y.link = lk →
    l.countP (fun i => i.link == lk) = 1 := by
  intro l
  induction l with
  | nil => intro lk _ y hy; simp at hy
  | cons a rest ih =>
    intro lk hp y hy hylk
    rcases List.pairwise_cons.mp hp with ⟨ha, hrest⟩
    rcases List.mem_cons.mp hy with rfl | hy
    · have hzero : rest.countP (fun i => i.link == lk) = 0 := by
        rw [List.countP_eq_zero]
        intro b hb
        simp only [beq_iff_eq]
        intro hc
        exact ha b hb (by rw [hylk, hc])
      simp [List.countP_cons, hzero, hylk]
    · have hcount := ih lk hrest y hy hylk
      have hhead : (a.link == lk) = false := by
        simp only [beq_eq_false_iff_ne]
        intro hc
        exact ha y hy (by rw [hc, hylk])
      simp [List.countP_cons, hhead, hcount]

theorem sortByPublishedAtDesc_perm (l : List NewsItem) : (sortByPublishedAtDesc l).Perm l :=
  List.mergeSort_perm l byPublishedDesc

theorem sortByPublishedAtDesc_sorted (l : List NewsItem) :
    (sortByPublishedAtDesc l).Pairwise (fun a b => b.publishedAt ≤ a.publishedAt) := by
  have h := @List.sorted_mergeSort NewsItem byPublishedDesc
    (by intro a b c hab hbc; simp only [byPublishedDesc, decide_eq_true_eq] at *; omega)
    (by intro a b; simp only [byPublishedDesc, Bool.or_eq_true, decide_eq_true_eq]; omega)
    l
  exact h.imp (by intro a b hab; simpa [byPublishedDesc] using hab)

theorem aggItems_link_pairwise (items : List NewsItem) :
    (sortByPublishedAtDesc (dedupByLink items)).Pairwise (fun a b => a.link ≠ b.link) :=
  (List.Perm.pairwise_iff (fun h => Ne.symm h)
    (sortByPublishedAtDesc_perm (dedupByLink items))).mpr (dedupAux_pairwise items [])

/-! ### Claim C2: link uniqueness of the aggregate -/

/-- C2: in every aggregate result of the news GET endpoint, no two items of the
returned sequence share the same `link` value, whatever the per-source inputs. -/
theorem aggregate_links_nodup (rssItems redditItems : List NewsItem) :
    ((GETnews rssItems redditItems).items).Pairwise (fun a b => a.link ≠ b.link) := by
  simpa [GETnews] using aggItems_link_pairwise (rssItems ++ redditItems)

theorem aggregate_links_nodup_witness :
    ((GETnews [⟨"i1", "t1", "https://a", "s1", 5, ""⟩]
      [⟨"i2", "t2", "https://a", "s2", 7, ""⟩]).items).Pairwise
      (fun a b => a.link ≠ b.link) :=
  aggregate_links_nodup _ _

/-! ### Claim C3: descending order of the aggregate -/

/-- C3: in every aggregate result of the news GET endpoint, every adjacent pair
satisfies `items[i].publishedAt ≥ items[i+1].publishedAt` (descending sort). -/
theorem aggregate_sorted_desc (rssItems redditItems : List NewsItem) :
    List.Chain' (fun a b => b.publishedAt ≤ a.publishedAt)
      (GETnews rssItems redditItems).items := by
  simpa [GETnews] using
    (sortByPublishedAtDesc_sorted (dedupByLink (rssItems ++ redditItems))).chain'

theorem aggregate_sorted_desc_witness :
    List.Chain' (fun a b => b.publishedAt ≤ a.publishedAt)
      (GETnews [⟨"i1", "t1", "https://a", "s1", 5, ""⟩]
        [⟨"i2", "t2", "https://b", "s2", 7, ""⟩]).items :=
  aggregate_sorted_desc _ _

/-! ### Claim C1: per-source failures are isolated -/

theorem flatten_map_filter_isOk {α β γ : Type} (f : Except γ α → List β)
    (hf : ∀ e, f (Except.error e) = []) :
    ∀ rs : List (Except γ α),
      (rs.map f).flatten = (((rs.filter (fun r => r.isOk)).map f)).flatten := by
  intro rs
  induction rs with
  | nil => rfl
  | cons r rs ih =>
    cases r with
    | ok a =>
      have hok : (Except.ok a : Except γ α).isOk = true := rfl
      simp [List.filter_cons, hok, ih]
    | error e =>
      have herr : (Except.error e : Except γ α).isOk = false := rfl
      simp [List.filter_cons, herr, hf, ih]

/-- C1: each fetcher catches its own upstream failures: a rejected feed or
subreddit fetch contributes `[]`, and the aggregate concatenation equals the
concatenation over the succeeding upstreams alone, so no error reaches the
caller (the fetchers are total functions into item lists). -/
theorem fetchers_isolate_failures :
    (∀ (now : Int) (e : Unit), fetchFeedResult now (Except.error e) = []) ∧
    (∀ e : Unit, fetchSubredditResult (Except.error e) = []) ∧
    (∀ (now : Int) (results : List (Except Unit RSSFeed)),
      getNewsAllItems now results =
        getNewsAllItems now (results.filter (fun r => r.isOk))) ∧
    (∀ results : List (Except Unit RedditListing),
      getRedditAllItems results =
        getRedditAllItems (results.filter (fun r => r.isOk))) := by
  refine ⟨fun _ _ => rfl, fun _ => rfl, fun now results => ?_, fun results => ?_⟩
  · exact flatten_map_filter_isOk (fetchFeedResult now) (fun _ => rfl) results
  · exact flatten_map_filter_isOk fetchSubredditResult (fun _ => rfl) results

theorem fetchers_isolate_failures_witness :
    getNewsAllItems 0 [Except.error (), Except.error ()] =
      getNewsAllItems 0 ([Except.error (), Except.error ()].filter (fun r => r.isOk)) :=
  fetchers_isolate_failures.2.2.1 0 [Except.error (), Except.error ()]

/-! ### Claim C5: cross-source duplicates keep the first occurrence -/

/-- C5: every link of the merged input survives into the aggregate exactly
once, and every aggregate item is the first occurrence of its link in the
concatenation [rss, reddit] — so a cross-source duplicate is attributed to
the source fetched first (RSS before Reddit). -/
theorem aggregate_keeps_first_occurrence (rssItems redditItems : List NewsItem) :
    (∀ x, x ∈ rssItems ++ redditItems →
      ∃ y, y ∈ (GETnews rssItems redditItems).items ∧ y.link = x.link ∧
        ((GETnews rssItems redditItems).items).countP (fun i => i.link == x.link) = 1) ∧
    (∀ y, y ∈ (GETnews rssItems redditItems).items →
      (rssItems ++ redditItems).find? (fun i => i.link == y.link) = some y) := by
  constructor
  · intro x hx
    obtain ⟨y, hy, hyl⟩ := dedupAux_covers (rssItems ++ redditItems) [] x hx (by simp)
    have hysort : y ∈ sortByPublishedAtDesc (dedupByLink (rssItems ++ redditItems)) :=
      (sortByPublishedAtDesc_perm _).mem_iff.mpr hy
    refine ⟨y, by simpa [GETnews] using hysort, hyl, ?_⟩
    have hcount := pairwise_countP_one _ x.link
      (aggItems_link_pairwise (rssItems ++ redditItems)) y hysort hyl
    simpa [GETnews] using hcount
  · intro y hy
    have hsort : y ∈ sortByPublishedAtDesc (dedupByLink (rssItems ++ redditItems)) := by
      simpa [GETnews] using hy
    exact dedupAux_find _ [] y ((sortByPublishedAtDesc_perm _).mem_iff.mp hsort)

theorem aggregate_keeps_first_occurrence_witness :
    ([⟨"i1", "t1", "https://a", "rss feed", 5, ""⟩] ++
      [⟨"i2", "t2", "https://a", "r/sub", 7, ""⟩] : List NewsItem).find?
      (fun i => i.link == (⟨"i1", "t1", "https://a", "rss feed", 5, ""⟩ : NewsItem).link) =
      some ⟨"i1", "t1", "https://a", "rss feed", 5, ""⟩ :=
  (aggregate_keeps_first_occurrence
      [⟨"i1", "t1", "https://a", "rss feed", 5, ""⟩]
      [⟨"i2", "t2", "https://a", "r/sub", 7, ""⟩]).2
    ⟨"i1", "t1", "https://a", "rss feed", 5, ""⟩
    (by simp [GETnews, dedupByLink, dedupAux, sortByPublishedAtDesc])

/-! ### Claim C6: the per-source 5-minute TTL cache -/

/-- C6: for both per-source fetchers, a first call at `t1` runs the network
fetch and stores `{data, t1 + TTL}`; a second call before the expiry returns
the stored data unchanged without fetching; a call at or after the expiry
fetches again and overwrites the slot with the new data and a new expiry. -/
theorem per_source_cache_ttl (t1 t2 t3 : Int)
    (fr1 fr2 fr3 : List (Except Unit RSSFeed))
    (lr1 lr2 lr3 : List (Except Unit RedditListing))
    (h2 : t2 < t1 + CACHE_TTL_MS) (h3 : t1 + CACHE_TTL_MS ≤ t3) :
    (getNewsStep t1 fr1 none).2.2 = true ∧
    (getNewsStep t1 fr1 none).1 = getNewsCompute t1 fr1 ∧
    (getNewsStep t1 fr1 none).2.1 = some ⟨getNewsCompute t1 fr1, t1 + CACHE_TTL_MS⟩ ∧
    (getNewsStep t2 fr2 (getNewsStep t1 fr1 none).2.1).2.2 = false ∧
    (getNewsStep t2 fr2 (getNewsStep t1 fr1 none).2.1).1 = (getNewsStep t1 fr1 none).1 ∧
    (getNewsStep t2 fr2 (getNewsStep t1 fr1 none).2.1).2.1 = (getNewsStep t1 fr1 none).2.1 ∧
    (getNewsStep t3 fr3 (getNewsStep t2 fr2 (getNewsStep t1 fr1 none).2.1).2.1).2.2 = true ∧
    (getNewsStep t3 fr3 (getNewsStep t2 fr2 (getNewsStep t1 fr1 none).2.1).2.1).1 =
      getNewsCompute t3 fr3 ∧
    (getNewsStep t3 fr3 (getNewsStep t2 fr2 (getNewsStep t1 fr1 none).2.1).2.1).2.1 =
      some ⟨getNewsCompute t3 fr3, t3 + CACHE_TTL_MS⟩ ∧
    (getRedditNewsStep t1 lr1 none).2.2 = true ∧
    (getRedditNewsStep t1 lr1 none).1 = getRedditAllItems lr1 ∧
    (getRedditNewsStep t1 lr1 none).2.1 = some ⟨getRedditAllItems lr1, t1 + CACHE_TTL_MS⟩ ∧
    (getRedditNewsStep t2 lr2 (getRedditNewsStep t1 lr1 none).2.1).2.2 = false ∧
    (getRedditNewsStep t2 lr2 (getRedditNewsStep t1 lr1 none).2.1).1 =
      (getRedditNewsStep t1 lr1 none).1 ∧
    (getRedditNewsStep t2 lr2 (getRedditNewsStep t1 lr1 none).2.1).2.1 =
      (getRedditNewsStep t1 lr1 none).2.1 ∧
    (getRedditNewsStep t3 lr3
      (getRedditNewsStep t2 lr2 (getRedditNewsStep t1 lr1 none).2.1).2.1).2.2 = true ∧
    (getRedditNewsStep t3 lr3
      (getRedditNewsStep t2 lr2 (getRedditNewsStep t1 lr1 none).2.1).2.1).1 =
      getRedditAllItems lr3 ∧
    (getRedditNewsStep t3 lr3
      (getRedditNewsStep t2 lr2 (getRedditNewsStep t1 lr1 none).2.1).2.1).2.1 =
      some ⟨getRedditAllItems lr3, t3 + CACHE_TTL_MS⟩ := by
  have e1 : getNewsStep t1 fr1 none =
      (getNewsCompute t1 fr1, some ⟨getNewsCompute t1 fr1, t1 + CACHE_TTL_MS⟩, true) := rfl
  have e2 : getNewsStep t2 fr2 (some ⟨getNewsCompute t1 fr1, t1 + CACHE_TTL_MS⟩) =
      (getNewsCompute t1 fr1, some ⟨getNewsCompute t1 fr1, t1 + CACHE_TTL_MS⟩, false) := by
    simp only [getNewsStep]
    rw [if_pos h2]
  have e3 : getNewsStep t3 fr3 (some ⟨getNewsCompute t1 fr1, t1 + CACHE_TTL_MS⟩) =
      (getNewsCompute t3 fr3, some ⟨getNewsCompute t3 fr3, t3 + CACHE_TTL_MS⟩, true) := by
    simp only [getNewsStep]
    rw [if_neg (by omega)]
  have r1 : getRedditNewsStep t1 lr1 none =
      (getRedditAllItems lr1, some ⟨getRedditAllItems lr1, t1 + CACHE_TTL_MS⟩, true) := rfl
  have r2 : getRedditNewsStep t2 lr2 (some ⟨getRedditAllItems lr1, t1 + CACHE_TTL_MS⟩) =
      (getRedditAllItems lr1, some ⟨getRedditAllItems lr1, t1 + CACHE_TTL_MS⟩, false) := by
    simp only [getRedditNewsStep]
    rw [if_pos h2]
  have r3 : getRedditNewsStep t3 lr3 (some ⟨getRedditAllItems lr1, t1 + CACHE_TTL_MS⟩) =
      (getRedditAllItems lr3, some ⟨getRedditAllItems lr3, t3 + CACHE_TTL_MS⟩, true) := by
    simp only [getRedditNewsStep]
    rw [if_neg (by omega)]
  rw [e1]
  rw [e2]
  rw [e3]
  rw [r1]
  rw [r2]
  rw [r3]
  exact ⟨rfl, rfl, rfl, rfl, rfl, rfl, rfl, rfl, rfl, rfl, rfl, rfl, rfl, rfl, rfl, rfl,
    rfl, rfl⟩

theorem per_source_cache_ttl_witness :
    (getNewsStep 1 [] (getNewsStep 0 [] none).2.1).2.2 = false :=
  (per_source_cache_ttl 0 1 CACHE_TTL_MS [] [] [] [] [] [] (by decide) (by decide)).2.2.2.1

/-! ### Claim C10: RSS deduplicates and sorts per source, Reddit does not -/

/-- C10: the sequence `getNews` computes and caches is already
link-deduplicated and sorted by `publishedAt` descending, while
`getRedditNews` caches the raw concatenation of per-subreddit results: a
single listing with two posts sharing a url yields two cached items with the
same link, in ascending time order. -/
theorem per_source_dedup_sort_asymmetry :
    (∀ (now : Int) (results : List (Except Unit RSSFeed)),
      (getNewsCompute now results).Pairwise (fun a b => a.link ≠ b.link) ∧
      List.Chain' (fun a b => b.publishedAt ≤ a.publishedAt) (getNewsCompute now results)) ∧
    (∃ (results : List (Except Unit RedditListing)) (i1 i2 : NewsItem),
      getRedditAllItems results = [i1, i2] ∧ i1.link = i2.link ∧
      i1.publishedAt < i2.publishedAt) := by
  constructor
  · intro now results
    exact ⟨aggItems_link_pairwise _, (sortByPublishedAtDesc_sorted _).chain'⟩
  · refine ⟨[Except.ok ⟨⟨[⟨⟨"T1", "https://dup", "/p1", "", false, false, 1, "news", "d"⟩⟩,
      ⟨⟨"T2", "https://dup", "/p2", "", false, false, 2, "news", "d"⟩⟩]⟩⟩],
      ⟨makeId "https://dup", "T1", "https://dup", "r/news", 1000, ""⟩,
      ⟨makeId "https://dup", "T2", "https://dup", "r/news", 2000, ""⟩, rfl, rfl, by decide⟩

theorem per_source_dedup_sort_asymmetry_witness :
    (getNewsCompute 0 []).Pairwise (fun a b => a.link ≠ b.link) :=
  (per_source_dedup_sort_asymmetry.1 0 []).1

/-! ### Claim C4: the 500-character summary cap -/

theorem capped_summary_spec (s : String) (h : 500 < jsLength s) :
    jsLength (jsSliceTo s 497 ++ "…") = 498 ∧
    (jsSliceTo s 497 ++ "…").data.getLast? = some '…' := by
  have hdata : (jsSliceTo s 497 ++ "…").data = s.data.take 497 ++ ['…'] := by
    rw [String.data_append]
    rfl
  constructor
  · rw [jsLength, hdata, List.length_append, List.length_take]
    rw [jsLength] at h
    rw [Nat.min_eq_left (by omega)]
    simp
  · rw [hdata]
    exact List.getLast?_concat _

/-- C4 fails on the code: both normalizers cap an overlong summary with
`slice(0, 497) + ellipsis`, which stores 498 characters, not 500. Concretely a
501-character snippet is stored as a 498-character summary. -/
theorem summary_cap_not_500 :
    ∃ res : NewsItem,
      normaliseItem 0 ⟨some "t", some "https://e.x", none,
        some (String.mk (List.replicate 501 'a')), some 3⟩ "src" = some res ∧
      jsLength res.summary = 498 ∧ ¬ jsLength res.summary = 500 := by
  refine ⟨⟨makeId "https://e.x", "t", "https://e.x", "src", 3,
    jsSliceTo (String.mk (List.replicate 501 'a')) 497 ++ "…"⟩, by decide, by decide, by decide⟩

theorem redditSummaryTailSpec (d : RedditPostData) :
    (500 < jsLength (redditSummaryCandidate d) →
      jsLength (if d.selftext = "" then "" else
          if 500 < jsLength (redditSummaryCandidate d) then
            jsSliceTo (redditSummaryCandidate d) 497 ++ "…"
          else redditSummaryCandidate d) = 498 ∧
      (if d.selftext = "" then "" else
          if 500 < jsLength (redditSummaryCandidate d) then
            jsSliceTo (redditSummaryCandidate d) 497 ++ "…"
          else redditSummaryCandidate d).data.getLast? = some '…') ∧
    (jsLength (redditSummaryCandidate d) ≤ 500 →
      (if d.selftext = "" then "" else
          if 500 < jsLength (redditSummaryCandidate d) then
            jsSliceTo (redditSummaryCandidate d) 497 ++ "…"
          else redditSummaryCandidate d) = redditSummaryCandidate d) := by
  by_cases hself : d.selftext = ""
  · refine ⟨fun hlen => ?_, fun _ => ?_⟩
    · rw [redditSummaryCandidate, hself] at hlen
      exact absurd hlen (by decide)
    · rw [if_pos hself, redditSummaryCandidate, hself]
      decide
  · refine ⟨fun hlen => ?_, fun hlen => ?_⟩
    · rw [if_neg hself, if_pos hlen]
      exact capped_summary_spec _ hlen
    · rw [if_neg hself, if_neg (by omega)]

/-- C4 amended: a source summary longer than 500 characters is stored as
exactly 498 characters (the first 497 followed by the one-character ellipsis)
ending in the ellipsis marker, in both fetchers' normalizers; a summary of at
most 500 characters is stored unchanged. -/
theorem summary_cap_behavior :
    (∀ (now : Int) (item : RSSItem) (source : String) (res : NewsItem),
      normaliseItem now item source = some res →
      (500 < jsLength (rssSummaryCandidate item) →
        jsLength res.summary = 498 ∧ res.summary.data.getLast? = some '…') ∧
      (jsLength (rssSummaryCandidate item) ≤ 500 →
        res.summary = rssSummaryCandidate item)) ∧
    (∀ (post : RedditPost) (res : NewsItem),
      normalisePost post = some res →
      (500 < jsLength (redditSummaryCandidate post.data) →
        jsLength res.summary = 498 ∧ res.summary.data.getLast? = some '…') ∧
      (jsLength (redditSummaryCandidate post.data) ≤ 500 →
        res.summary = redditSummaryCandidate post.data)) := by
  constructor
  · intro now item source res h
    simp only [normaliseItem] at h
    split at h
    · exact Option.noConfusion h
    · rw [Option.some_inj] at h
      subst h
      refine ⟨fun hlen => ?_, fun hlen => ?_⟩
      · dsimp only
        rw [if_pos hlen]
        exact capped_summary_spec _ hlen
      · dsimp only
        rw [if_neg (by omega)]
  · intro post res h
    simp only [normalisePost] at h
    split at h
    · exact Option.noConfusion h
    · split at h <;> split at h
      · exact Option.noConfusion h
      · rw [Option.some_inj] at h
        subst h
        exact redditSummaryTailSpec post.data
      · exact Option.noConfusion h
      · rw [Option.some_inj] at h
        subst h
        exact redditSummaryTailSpec post.data

theorem summary_cap_behavior_witness :
    jsLength ((⟨makeId "https://e.x", "t", "https://e.x", "src", 3,
      jsSliceTo (String.mk (List.replicate 501 'a')) 497 ++ "…"⟩ : NewsItem).summary) = 498 ∧
    ((⟨makeId "https://e.x", "t", "https://e.x", "src", 3,
      jsSliceTo (String.mk (List.replicate 501 'a')) 497 ++ "…"⟩ :
        NewsItem).summary).data.getLast? = some '…' :=
  (summary_cap_behavior.1 0
      ⟨some "t", some "https://e.x", none, some (String.mk (List.replicate 501 'a')), some 3⟩
      "src"
      ⟨makeId "https://e.x", "t", "https://e.x", "src", 3,
        jsSliceTo (String.mk (List.replicate 501 'a')) 497 ++ "…"⟩
      (by decide)).1 (by decide)

/-! ### Claim C7: determinism, fixed length and (non-)injectivity of makeId -/

theorem compress_ab_lt (st : Hash8) (w : List Nat) :
    (compress st w).a < M32 ∧ (compress st w).b < M32 :=
  ⟨Nat.mod_lt _ (by decide), Nat.mod_lt _ (by decide)⟩

theorem foldl_compress_lt (bs : List (List Nat)) :
    ∀ st : Hash8, st.a < M32 → st.b < M32 →
      ((bs.foldl (fun st blk => compress st (schedule (toWords blk))) st).a < M32 ∧
       (bs.foldl (fun st blk => compress st (schedule (toWords blk))) st).b < M32) := by
  induction bs with
  | nil => intro st ha hb; exact ⟨ha, hb⟩
  | cons blk bs ih =>
    intro st _ _
    rw [List.foldl_cons]
    exact ih _ (compress_ab_lt _ _).1 (compress_ab_lt _ _).2

theorem sha256words_ab_lt (msg : List Nat) :
    (sha256words msg).a < M32 ∧ (sha256words msg).b < M32 := by
  rw [sha256words]
  exact foldl_compress_lt _ sha256init (by decide) (by decide)

theorem makeId_eq_renderPair (l : String) : makeId l = renderPair (truncPair l) := by
  obtain ⟨ha, hb⟩ := sha256words_ab_lt (utf8Encode l)
  have hm : M32 = 4294967296 := rfl
  rw [hm] at ha hb
  have ha' : (sha256words (utf8Encode l)).a % 4294967296 = (sha256words (utf8Encode l)).a :=
    Nat.mod_eq_of_lt ha
  have hb' : (sha256words (utf8Encode l)).b % 4294967296 = (sha256words (utf8Encode l)).b :=
    Nat.mod_eq_of_lt hb
  have hdiv : (truncPair l).val / 4294967296 = (sha256words (utf8Encode l)).a := by
    show (((sha256words (utf8Encode l)).a % 4294967296) * 4294967296 +
      (sha256words (utf8Encode l)).b % 4294967296) / 4294967296 = (sha256words (utf8Encode l)).a
    rw [ha', hb']
    omega
  have hmod : (truncPair l).val % 4294967296 = (sha256words (utf8Encode l)).b := by
    show (((sha256words (utf8Encode l)).a % 4294967296) * 4294967296 +
      (sha256words (utf8Encode l)).b % 4294967296) % 4294967296 = (sha256words (utf8Encode l)).b
    rw [ha', hb']
    omega
  rw [makeId, renderPair, hdiv, hmod]
  congr 1

/-- C7 fails as stated on the injectivity half: `makeId` truncates a sha256
digest to 64 bits, so by pigeonhole over the infinitely many links there exist
two different links with the same id (its negation is proved; exhibiting a
concrete colliding pair is computationally infeasible by design). -/
theorem makeId_not_injective :
    ¬ (∀ l1 l2 : String, l1 ≠ l2 → makeId l1 ≠ makeId l2) := by
  intro hinj
  haveI : Infinite String :=
    Infinite.of_injective (fun n : Nat => String.mk (List.replicate n 'a'))
      (fun m n h => by simpa using congrArg (fun s => s.data.length) h)
  obtain ⟨x, y, hxy, heq⟩ := Finite.exists_ne_map_eq_of_infinite truncPair
  exact hinj x y hxy (by rw [makeId_eq_renderPair, makeId_eq_renderPair, heq])

/-- C7 amended: `makeId` is a pure function of the link alone (deterministic,
no per-process salt, stable across restarts — in the embedding it is a closed
function of its argument) and always returns an id of exactly 16 characters;
distinct links are collision-resistant but not provably distinct. -/
theorem makeId_fixed_length (link : String) : jsLength (makeId link) = 16 := by
  rw [makeId, jsLength]
  show ((digestHex (sha256words (utf8Encode link))).take 16).length = 16
  rw [List.length_take]
  rw [show (digestHex (sha256words (utf8Encode link))).length = 64 from by
    simp [digestHex, wordHexChars]]
  omega

/-! ### Claim C8: the Reddit normalizer's drop rules and link choice -/

theorem reddit_link_ne_empty (p : String) : ¬ ("https://www.reddit.com" ++ p) = "" := by
  intro h
  have h0 := congrArg String.data h
  rw [String.data_append] at h0
  exact absurd (List.append_eq_nil.mp h0).1 (by decide)

/-- C8: `normalisePost` drops a post exactly when it is stickied, or its
trimmed title is empty, or it is a link post with an empty external url (the
self-post permalink always resolves since it is prefixed with the reddit.com
origin); a kept link post carries its external url and a kept self post its
reddit.com permalink. -/
theorem normalisePost_drop_and_link (post : RedditPost) :
    (normalisePost post = none ↔
      post.data.stickied = true ∨ jsTrim post.data.title = "" ∨
      (post.data.is_self = false ∧ post.data.url = "")) ∧
    (∀ res, normalisePost post = some res →
      res.link = if post.data.is_self then
        "https://www.reddit.com" ++ post.data.permalink else post.data.url) := by
  constructor
  · by_cases h1 : post.data.stickied || jsTrim post.data.title == ""
    · have hdis : post.data.stickied = true ∨ jsTrim post.data.title = "" := by
        simpa using h1
      constructor
      · intro _
        rcases hdis with h | h
        · exact Or.inl h
        · exact Or.inr (Or.inl h)
      · intro _
        simp only [normalisePost]
        rw [if_pos h1]
    · have hs : ¬ post.data.stickied = true := by
        intro hc
        exact h1 (by simp [hc])
      have ht : ¬ jsTrim post.data.title = "" := by
        intro hc
        exact h1 (by simp [hc])
      by_cases h2 : (if post.data.is_self then
          "https://www.reddit.com" ++ post.data.permalink else post.data.url) = ""
      · have hurl : post.data.is_self = false ∧ post.data.url = "" := by
          cases hself : post.data.is_self
          · rw [hself] at h2
            exact ⟨rfl, by simpa using h2⟩
          · rw [hself] at h2
            exact absurd (by simpa using h2) (reddit_link_ne_empty post.data.permalink)
        constructor
        · intro _
          exact Or.inr (Or.inr hurl)
        · intro _
          simp only [normalisePost]
          rw [if_neg h1, if_pos h2]
      · constructor
        · intro hcontra
          simp only [normalisePost] at hcontra
          rw [if_neg h1, if_neg h2] at hcontra
          exact Option.noConfusion hcontra
        · intro hrhs
          rcases hrhs with h | h | ⟨hf, hu⟩
          · exact absurd h hs
          · exact absurd h ht
          · exact absurd (by simp [hf, hu]) h2
  · intro res h
    simp only [normalisePost] at h
    split at h
    · exact Option.noConfusion h
    · split at h
      · rename_i hself
        split at h
        · exact Option.noConfusion h
        · rw [Option.some_inj] at h
          subst h
          rw [if_pos hself]
      · rename_i hself
        split at h
        · exact Option.noConfusion h
        · rw [Option.some_inj] at h
          subst h
          rw [if_neg hself]

theorem normalisePost_drop_and_link_witness :
    (⟨makeId "https://ext", "T", "https://ext", "r/sub", 9000, ""⟩ : NewsItem).link =
      "https://ext" :=
  (normalisePost_drop_and_link ⟨⟨"T", "https://ext", "/p", "", false, false, 9, "sub", "d"⟩⟩).2
    ⟨makeId "https://ext", "T", "https://ext", "r/sub", 9000, ""⟩ (by decide)

/-! ### Claim C9: termination of the redirect-following fetch -/

/-- C9: `fetchJSON` follows redirects by recursive self-invocation with no
depth bound: whenever the upstream's redirect chain from a url is finite of
length `n`, any recursion budget above `n` terminates with a result; and
there is an upstream (one that always redirects) on which no finite budget
whatsoever produces a result — termination holds only under the finite-chain
precondition. -/
theorem fetchJSON_redirect_termination :
    (∀ (up : String → HttpResp) (parse : String → Option RedditListing) (url : String) (n : Nat),
      RedirectChain up url n → ∀ fuel : Nat, n < fuel →
        (fetchJSONFuel up parse fuel url).isSome = true) ∧
    (∃ up : String → HttpResp, ∀ (parse : String → Option RedditListing) (fuel : Nat)
      (url : String), fetchJSONFuel up parse fuel url = none) := by
  constructor
  · intro up parse url n hchain
    induction hchain with
    | done u hu =>
      intro fuel hfuel
      cases fuel with
      | zero => omega
      | succ fuel =>
        simp only [fetchJSONFuel]
        rw [if_neg (by simp [hu])]
        split
        · rfl
        · split <;> rfl
    | step u m hredir hnext ih =>
      intro fuel hfuel
      cases fuel with
      | zero => omega
      | succ fuel =>
        simp only [fetchJSONFuel]
        rw [if_pos (by simp [hredir])]
        exact ih fuel (by omega)
  · refine ⟨fun _ => ⟨301, some "u", ""⟩, ?_⟩
    intro parse fuel
    induction fuel with
    | zero => intro url; rfl
    | succ fuel ih =>
      intro url
      simp only [fetchJSONFuel]
      rw [if_pos (by decide)]
      exact ih _

theorem fetchJSON_redirect_termination_witness :
    (fetchJSONFuel
      (fun url => if url = "a" then ⟨301, some "b", ""⟩ else ⟨200, none, "x"⟩)
      (fun _ => none) 2 "a").isSome = true :=
  fetchJSON_redirect_termination.1
    (fun url => if url = "a" then ⟨301, some "b", ""⟩ else ⟨200, none, "x"⟩)
    (fun _ => none) "a" 1
    (RedirectChain.step "a" 0 (by decide) (RedirectChain.done _ (by decide)))
    2 (by decide)

end NewsApi
